import Mathlib

/-!
Verification of the zeal crdt-server (Rust) against its specification.

The development shallowly embeds the crdt-server crate:
  - src/crdt-server/src/sync_protocol.rs  (sync framing, read_sync_message)
  - src/crdt-server/src/room.rs           (CRDTRoom and its operations)
  - src/crdt-server/src/redis_manager.rs  (save_room_state, live version)
  - src/crdt-server/src/redis_manager_patch.rs (proposed save_room_state)
  - src/crdt-server/src/server.rs         (handle_leave on the room registry)

Bytes are modelled as natural numbers, monotonic instants as natural
numbers (seconds), and the concurrent maps (DashMap) as association lists
whose operations mirror the DashMap calls made by the source. The third
party CRDT library (yrs) and the lib0 cursor are not part of the crate;
their semantics is modelled from the specification text (section 4.2
framing details, the glossary entries for state vector and update, and
section 9 state-vector-encoding note).
-/

abbrev Byte := Nat

/-- Translated from room.rs try_read_varint (lines 337-361), which mirrors
the lib0 cursor varint read used by the sync protocol: 7-bit groups, LSB
first, high bit set to continue, at most 10 bytes, overflow past 64 bits
rejected. The fuel argument plays the role of the take(10) bound. -/
def try_read_varint_aux : Nat → List Byte → Nat → Nat → Option (Nat × List Byte)
  | 0, _, _, _ => none
  | _ + 1, [], _, _ => none
  | fuel + 1, b :: rest, value, shift =>
    let value := value ||| ((b &&& 0x7F) <<< shift)
    if b &&& 0x80 = 0 then some (value, rest)
    else if shift + 7 ≥ 64 then none
    else try_read_varint_aux fuel rest value (shift + 7)

/-- Modelled from the spec (section 4.2 framing details) and room.rs
try_read_varint: read one variable-length unsigned integer from the front
of the byte list, returning the value and the remaining bytes, or none on
an empty, incomplete or overflowing encoding (the Malformed outcome). -/
def read_var (data : List Byte) : Option (Nat × List Byte) :=
  try_read_varint_aux 10 data 0 0

/-- Modelled from the spec (section 4.2): a length-prefixed byte buffer is
a varint length followed by that many raw bytes; too few bytes is a
Malformed outcome. Mirrors the lib0 cursor read_buf call. -/
def read_buf (data : List Byte) : Option (List Byte × List Byte) :=
  match read_var data with
  | none => none
  | some (len, rest) =>
    if len ≤ rest.length then some (rest.take len, rest.drop len) else none

/-- Modelled from the spec (section 4.2): varint writer, inverse of
read_var on values below 2 to the 64. Fuel 10 suffices for 64-bit values. -/
def write_var_aux : Nat → Nat → List Byte
  | 0, _ => []
  | fuel + 1, n =>
    if n < 0x80 then [n]
    else ((n &&& 0x7F) ||| 0x80) :: write_var_aux fuel (n >>> 7)

/-- Varint writer entry point (lib0 write_var). -/
def write_var (n : Nat) : List Byte := write_var_aux 10 n

/-- Length-prefixed buffer writer (lib0 write_buf). -/
def write_buf (u : List Byte) : List Byte := write_var u.length ++ u

/-- Modelled from the spec (glossary): an update item of the CRDT library,
identified by the producing client and its clock position. The payload is
irrelevant to every claim, so items are bare (client, clock) pairs. -/
structure YItem where
  client : Nat
  clock : Nat
deriving DecidableEq

/-- Modelled from the spec (glossary): the replica is the set of items it
has integrated, in integration order. -/
abbrev YDoc := List YItem

/-- Modelled from the spec (glossary): a state vector maps a client to the
next clock it expects, summarising which updates the replica contains. -/
abbrev YStateVector := List (Nat × Nat)

/-- Clock expected next for a client under a state vector; zero when the
client is absent (the zero state vector is the empty list). -/
def sv_lookup (sv : YStateVector) (c : Nat) : Nat :=
  match sv.find? (fun p => p.1 == c) with
  | some p => p.2
  | none => 0

/-- Raise the entry of one client in a state vector to at least k. -/
def sv_bump (sv : YStateVector) (c k : Nat) : YStateVector :=
  match sv with
  | [] => [(c, k)]
  | p :: rest =>
    if p.1 == c then (c, max p.2 k) :: rest else p :: sv_bump rest c k

/-- Modelled from the spec (glossary): the state vector of a replica
records, per client, one past the highest clock present. Mirrors the yrs
transact state_vector call. -/
def state_vector (d : YDoc) : YStateVector :=
  d.foldl (fun sv it => sv_bump sv it.client (it.clock + 1)) []

/-- Modelled from the spec (section 4.2, step 1 semantics): the items of
the replica that lie at or beyond the clocks recorded in the given state
vector, i.e. the updates the holder of that state vector is missing. -/
def missing_items (d : YDoc) (sv : YStateVector) : List YItem :=
  d.filter (fun it => decide (sv_lookup sv it.client ≤ it.clock))

/-- Modelled from the spec: serialisation of a list of items as update
bytes, a varint count followed by varint client and clock per item.
Mirrors the shape (count header, then structs) of the v1 update encoding;
in particular the encoding of an empty diff is a nonempty byte string. -/
def encode_items (items : List YItem) : List Byte :=
  write_var items.length ++
    items.foldr (fun it acc => write_var it.client ++ write_var it.clock ++ acc) []

/-- Modelled from the spec (section 9 state-vector-encoding note): the yrs
encode_state_as_update_v1 call encodes, against a given state vector, the
updates that state vector lacks. -/
def encode_state_as_update_v1 (d : YDoc) (sv : YStateVector) : List Byte :=
  encode_items (missing_items d sv)

/-- Modelled from the spec: decoder for the state vector v1 format, a
varint entry count followed by that many (client, clock) varint pairs.
Mirrors the yrs StateVector decode_v1 call; any exhausted or malformed
input is a Malformed outcome (none). -/
def decode_sv_entries : Nat → List Byte → Option (YStateVector × List Byte)
  | 0, rest => some ([], rest)
  | n + 1, rest =>
    match read_var rest with
    | none => none
    | some (c, rest1) =>
      match read_var rest1 with
      | none => none
      | some (k, rest2) =>
        match decode_sv_entries n rest2 with
        | none => none
        | some (sv, rest3) => some ((c, k) :: sv, rest3)

/-- State vector decoding entry point (yrs StateVector decode_v1). -/
def state_vector_decode_v1 (data : List Byte) : Option YStateVector :=
  match read_var data with
  | none => none
  | some (n, rest) =>
    match decode_sv_entries n rest with
    | none => none
    | some (sv, _) => some sv

/-- Modelled from the spec: decoder for update bytes, inverse in shape of
encode_items. Mirrors the yrs Update decode_v1 call; malformed input is a
Malformed outcome (none). -/
def decode_update_items : Nat → List Byte → Option (List YItem × List Byte)
  | 0, rest => some ([], rest)
  | n + 1, rest =>
    match read_var rest with
    | none => none
    | some (c, rest1) =>
      match read_var rest1 with
      | none => none
      | some (k, rest2) =>
        match decode_update_items n rest2 with
        | none => none
        | some (its, rest3) => some (⟨c, k⟩ :: its, rest3)

/-- Update decoding entry point (yrs Update decode_v1). -/
def update_decode_v1 (data : List Byte) : Option (List YItem) :=
  match read_var data with
  | none => none
  | some (n, rest) =>
    match decode_update_items n rest with
    | none => none
    | some (its, _) => some its

/-- Modelled from the spec (section 4.2): applying an update integrates
the items the replica does not already hold; an already-seen item is a
no-op, so apply is idempotent. Mirrors the yrs apply_update call. -/
def apply_update (d : YDoc) (u : List YItem) : YDoc :=
  u.foldl (fun acc it => if acc.contains it then acc else acc ++ [it]) d

/-- Translated from config.rs ServerConfig. -/
structure ServerConfig where
  port : Nat
  max_clients_per_room : Nat
  client_timeout_minutes : Nat
  cors_origin : String
  redis_url : String
  enable_redis_persistence : Bool
deriving DecidableEq

/-- Translated from config.rs, the Default instance for ServerConfig. -/
def ServerConfig.default : ServerConfig :=
  { port := 8080
    max_clients_per_room := 100
    client_timeout_minutes := 30
    cors_origin := "http://localhost:3000"
    redis_url := "redis://redis:6379"
    enable_redis_persistence := true }

/-- Translated from redis_manager.rs RedisManager: the only field the
claims depend on is the enabled flag consulted by is_enabled and by the
early returns of every cache operation. -/
structure RedisManager where
  enabled : Bool
deriving DecidableEq

/-- One SET command issued to the cache: key, raw value bytes, and the
expiry in seconds (none when the SET carries no EX argument). -/
structure RedisWrite where
  key : String
  value : List Byte
  ttl_seconds : Option Nat
deriving DecidableEq

/-- Translated from redis_manager.rs save_room_state (lines 82-99, the
live version compiled into the binary): writes the key room:<id>:state
with the EX 86400 expiry unconditionally. The write is skipped when the
manager is disabled, which the caller save_to_redis already rules out. -/
def save_room_state (room_id : String) (state : List Byte) : RedisWrite :=
  { key := "room:" ++ room_id ++ ":state"
    value := state
    ttl_seconds := some 86400 }

/-- The starts_with test of Rust str, as a computation on the character
lists of the two strings. -/
def starts_with (s p : String) : Bool :=
  p.toList.isPrefixOf s.toList

/-- Translated from redis_manager_patch.rs save_room_state (lines 4-32,
the proposed replacement, not compiled into the binary): workflow rooms,
whose name starts with wf_, are written without expiry; other rooms get
the EX 86400 expiry. -/
def save_room_state_patched (room_id : String) (state : List Byte) : RedisWrite :=
  { key := "room:" ++ room_id ++ ":state"
    value := state
    ttl_seconds := if starts_with room_id "wf_" then none else some 86400 }

/-- Association list lookup keyed by string, mirroring DashMap get. -/
def assoc_get (m : List (String × α)) (k : String) : Option α :=
  match m.find? (fun p => p.1 == k) with
  | some p => some p.2
  | none => none

/-- Association list insert keyed by string, mirroring DashMap insert:
replace the value when the key is present, append otherwise. -/
def assoc_insert (m : List (String × α)) (k : String) (v : α) : List (String × α) :=
  if (m.find? (fun p => p.1 == k)).isSome
  then m.map (fun p => if p.1 == k then (k, v) else p)
  else m ++ [(k, v)]

/-- Association list removal keyed by string, mirroring DashMap remove. -/
def assoc_erase (m : List (String × α)) (k : String) : List (String × α) :=
  m.filter (fun p => p.1 != k)

/-- Translated from room.rs CRDTRoom (lines 14-24). Instants are seconds
as naturals; the two DashMaps are association lists; the redis handle is
present or absent as in the Rust Option. -/
structure CRDTRoom where
  name : String
  doc : YDoc
  clients : List (String × Nat)
  awareness_states : List (String × List Byte)
  last_activity : Nat
  marked_for_removal : Option Nat
  config : ServerConfig
  redis : Option RedisManager
deriving DecidableEq

/-- Translated from room.rs CRDTRoom::new (lines 27-40): fresh empty
replica, empty tables, no redis handle; now is the creation instant. -/
def CRDTRoom.new (name : String) (config : ServerConfig) (now : Nat) : CRDTRoom :=
  { name := name
    doc := []
    clients := []
    awareness_states := []
    last_activity := now
    marked_for_removal := none
    config := config
    redis := none }

/-- Translated from room.rs CRDTRoom::with_redis (lines 42-55). -/
def CRDTRoom.with_redis (name : String) (config : ServerConfig)
    (redis : RedisManager) (now : Nat) : CRDTRoom :=
  { CRDTRoom.new name config now with redis := some redis }

/-- Translated from room.rs save_to_redis (lines 73-91): when a redis
handle is present and enabled, encode the replica against its own current
state vector and write it through save_room_state; otherwise return Ok
having written nothing. The redis_fails flag stands for the fallible SET
round trip: when the write is attempted and the cache fails, the error
propagates; in every other case the function returns Ok. The returned
option is the write issued (none when nothing was written). -/
def save_to_redis (room : CRDTRoom) (redis_fails : Bool) :
    Except String (Option RedisWrite) :=
  match room.redis with
  | some redis =>
    if redis.enabled then
      if redis_fails then .error "Redis connection failed"
      else
        .ok (some (save_room_state room.name
          (encode_state_as_update_v1 room.doc (state_vector room.doc))))
    else .ok none
  | none => .ok none

/-- Translated from room.rs add_client (lines 93-106): reject with the
capacity error when the client table has reached max_clients_per_room,
before any mutation; otherwise insert the client at the current instant
and update last_activity. -/
def add_client (room : CRDTRoom) (client_id : String) (now : Nat) :
    Except String CRDTRoom :=
  if room.clients.length ≥ room.config.max_clients_per_room then
    .error "Room capacity reached"
  else
    .ok { room with
            clients := assoc_insert room.clients client_id now
            last_activity := now }

/-- Translated from room.rs remove_client (lines 108-115): when the
client is present, remove it from the client table and the awareness
table and update last_activity; otherwise do nothing. -/
def remove_client (room : CRDTRoom) (client_id : String) (now : Nat) : CRDTRoom :=
  if (assoc_get room.clients client_id).isSome then
    { room with
        clients := assoc_erase room.clients client_id
        awareness_states := assoc_erase room.awareness_states client_id
        last_activity := now }
  else room

/-- Translated from room.rs cleanup_inactive_clients (lines 258-283):
collect the clients whose last-seen instant lies more than the timeout in
the past and remove each from the client table, returning the count. The
awareness table and last_activity are not touched by the source. -/
def cleanup_inactive_clients (room : CRDTRoom) (timeout_minutes now : Nat) :
    CRDTRoom × Nat :=
  let timeout := timeout_minutes * 60
  let removed := room.clients.filter (fun p => decide (timeout < now - p.2))
  let remaining := room.clients.filter (fun p => ! decide (timeout < now - p.2))
  ({ room with clients := remaining }, removed.length)

/-- Translated from room.rs is_valid_awareness_data (lines 323-334): a
payload is rejected exactly when it is empty or longer than 50000. -/
def is_valid_awareness_data (data : List Byte) : Bool :=
  if data.isEmpty || decide (data.length > 50000) then false else true

/-- Translated from room.rs mark_for_removal (lines 297-300). -/
def mark_for_removal (room : CRDTRoom) (now : Nat) : CRDTRoom :=
  { room with marked_for_removal := some now }

/-- Translated from room.rs unmark_for_removal (lines 302-305). -/
def unmark_for_removal (room : CRDTRoom) : CRDTRoom :=
  { room with marked_for_removal := none }

/-- Translated from room.rs should_be_removed (lines 307-313): true only
when the room carries a removal mark whose age reaches the grace period.
No call site exists anywhere in the crate. -/
def should_be_removed (room : CRDTRoom) (grace_period_secs now : Nat) : Bool :=
  match room.marked_for_removal with
  | some t => decide (now - t ≥ grace_period_secs)
  | none => false

/-- Translated from sync_protocol.rs SyncMessageType (lines 9-15). -/
inductive SyncMessageType
  | syncStep1
  | syncStep2
  | update
deriving DecidableEq

/-- Translated from sync_protocol.rs read_sync_message (lines 22-69):
read the inner sub-type varint; sub-type 0 reads a length-prefixed state
vector, decodes it, encodes the replica against it and, when the encoding
is nonempty, appends a step-2 frame (varint 1 then the buffer) to the
response; sub-types 1 and 2 read a length-prefixed update, decode it and
apply it to the replica; any other sub-type and any decode failure is an
error. Returns the sub-type handled, the replica after the call and the
response bytes accumulated. -/
def read_sync_message (data : List Byte) (doc : YDoc) :
    Option (SyncMessageType × YDoc × List Byte) :=
  match read_var data with
  | none => none
  | some (message_type, rest) =>
    match message_type with
    | 0 =>
      match read_buf rest with
      | none => none
      | some (sv_data, _) =>
        match state_vector_decode_v1 sv_data with
        | none => none
        | some client_state_vector =>
          let update := encode_state_as_update_v1 doc client_state_vector
          let response :=
            if update.isEmpty then [] else write_var 1 ++ write_buf update
          some (.syncStep1, doc, response)
    | 1 =>
      match read_buf rest with
      | none => none
      | some (update_data, _) =>
        match update_decode_v1 update_data with
        | none => none
        | some u => some (.syncStep2, apply_update doc u, [])
    | 2 =>
      match read_buf rest with
      | none => none
      | some (update_data, _) =>
        match update_decode_v1 update_data with
        | none => none
        | some u => some (.update, apply_update doc u, [])
    | _ => none

/-- Translated from room.rs handle_message lines 140-142: refresh the
last-seen instant of the sender when it is in the client table. -/
def touch_client (room : CRDTRoom) (client_id : String) (now : Nat) : CRDTRoom :=
  if (assoc_get room.clients client_id).isSome then
    { room with clients := assoc_insert room.clients client_id now }
  else room

/-- Translated from room.rs handle_message (lines 129-245): empty data
returns an empty response; otherwise the sender is touched and the frame
is routed by its leading tag byte. Tag 0 with a nonempty payload runs the
sync protocol; on success the replica is replaced and a nonempty sync
response is wrapped in a leading 0 byte, on failure the frame is dropped
with an empty response. Tag 1 with a nonempty payload stores the payload
in the awareness table when it validates, and drops it otherwise. Tags 2
and 3 and every other tag change nothing and answer nothing. The redis
save the source fires after a successful sync is not part of the returned
room (its result is ignored by the source). -/
def handle_message (room : CRDTRoom) (client_id : String) (data : List Byte)
    (now : Nat) : CRDTRoom × List Byte :=
  match data with
  | [] => (room, [])
  | message_type :: rest =>
    let room := touch_client room client_id now
    match message_type with
    | 0 =>
      match rest with
      | [] => (room, [])
      | _ :: _ =>
        match read_sync_message rest room.doc with
        | some (_, new_doc, response_buffer) =>
          let room := { room with doc := new_doc }
          if response_buffer.isEmpty then (room, [])
          else (room, 0 :: response_buffer)
        | none => (room, [])
    | 1 =>
      match rest with
      | [] => (room, [])
      | _ :: _ =>
        if is_valid_awareness_data rest then
          ({ room with
               awareness_states := assoc_insert room.awareness_states client_id rest },
           [])
        else (room, [])
    | _ => (room, [])

/-- The registry of the server: room name to room, as in server.rs
CRDTServer rooms (a DashMap). -/
abbrev RoomRegistry := List (String × CRDTRoom)

/-- Translated from server.rs handle_leave (lines 411-436): when the room
exists and holds the leaving client, remove the client; when the room is
then empty, attempt the redis save and, on success, remove the room from
the registry at once; on save failure keep the room resident. A room that
stays nonempty stays in the registry with the client removed. -/
def handle_leave (rooms : RoomRegistry) (room_name client_id : String)
    (redis_fails : Bool) (now : Nat) : RoomRegistry :=
  match assoc_get rooms room_name with
  | none => rooms
  | some room =>
    if (assoc_get room.clients client_id).isSome then
      let room := remove_client room client_id now
      if room.clients.length = 0 then
        match save_to_redis room redis_fails with
        | .error _ => assoc_insert rooms room_name room
        | .ok _ => assoc_erase rooms room_name
      else assoc_insert rooms room_name room
    else rooms

/-- A room whose replica holds one item, with an enabled redis handle. -/
def room_one_item : CRDTRoom :=
  { CRDTRoom.new "r" ServerConfig.default 0 with
      redis := some { enabled := true }
      doc := [⟨0, 0⟩] }

/-- The room above with a single connected client. -/
def room_single_client : CRDTRoom :=
  { room_one_item with clients := [("c", 2)] }

/-- A room holding one idle client with a stored presence entry. -/
def room_idle_client : CRDTRoom :=
  { CRDTRoom.new "r" ServerConfig.default 0 with
      clients := [("c", 0)]
      awareness_states := [("c", [7])] }

/-- A room carrying a pending removal mark and no clients. -/
def room_marked : CRDTRoom :=
  { CRDTRoom.new "r" ServerConfig.default 0 with marked_for_removal := some 5 }

/-- The invariant P1 of the spec as a decidable check: every identifier
with a presence entry is present in the client table. -/
def presence_subset_clients (room : CRDTRoom) : Bool :=
  room.awareness_states.all (fun p => (assoc_get room.clients p.1).isSome)

/-- The room state observed after an add_client call: in the source the
error return precedes every mutation, so the room is unchanged on error
and is the inserted room on success. -/
def add_client_state (room : CRDTRoom) (client_id : String) (now : Nat) : CRDTRoom :=
  match add_client room client_id now with
  | .error _ => room
  | .ok r => r

/-- A room at exact capacity: limit one client, one client present. -/
def room_at_capacity : CRDTRoom :=
  { CRDTRoom.new "r" { ServerConfig.default with max_clients_per_room := 1 } 0 with
      clients := [("a", 0)] }

/-- A room with one client whose redis handle is present but disabled. -/
def room_redis_disabled : CRDTRoom :=
  { CRDTRoom.new "r" ServerConfig.default 0 with
      clients := [("c", 1)]
      redis := some { enabled := false } }


/-- C2: the claim says an empty room is only removed after the 30 s grace
period. In the source, handle_leave removes the room from the registry at
the very instant the last client leaves once the save succeeds: at time 2
the single client leaves and the registry is immediately empty, although
should_be_removed with grace 30 at that same instant is still false (the
grace machinery has no caller). On a failed save the room stays resident
with the client removed. -/
theorem c2_removal_skips_grace_period :
    handle_leave [("r", room_single_client)] "r" "c" false 2 = []
    ∧ should_be_removed
        (mark_for_removal (remove_client room_single_client "c" 2) 2) 30 2 = false
    ∧ handle_leave [("r", room_single_client)] "r" "c" true 2 =
        [("r", remove_client room_single_client "c" 2)] :=
  ⟨rfl, rfl, rfl⟩

/-- C3: the live save_room_state writes room:<name>:state with the
86400 s expiry for every name, including names starting with wf_ such as
wf_alpha, where the claim (and the patch file in the repository) demand
no expiry; only the uncompiled patched version implements the claimed
policy. -/
theorem c3_live_ttl_ignores_wf (room_id : String) (state : List Byte) :
    save_room_state room_id state =
      { key := "room:" ++ room_id ++ ":state"
        value := state
        ttl_seconds := some 86400 }
    ∧ (save_room_state "wf_alpha" state).ttl_seconds = some 86400
    ∧ starts_with "wf_alpha" "wf_" = true
    ∧ (save_room_state_patched room_id state).ttl_seconds =
        (if starts_with room_id "wf_" then none else some 86400) :=
  ⟨rfl, rfl, by decide, rfl⟩

/-- C9: on a fresh room with an empty replica, the frame consisting of
the sync tag, sub-type 0 and a zero-length state vector produces no
step-2 response: handle_message returns the room unchanged and an empty
byte vector (the zero-length state vector does not even decode, so the
inner frame is dropped). -/
theorem c9_step1_on_empty_replica_silent :
    handle_message (CRDTRoom.new "wf_alpha" ServerConfig.default 0) "c1"
        [0, 0, 0] 7 =
      (CRDTRoom.new "wf_alpha" ServerConfig.default 0, []) := rfl

/-- C4, counterexample: a room with one client, idle for two hours, and a
stored presence entry satisfies P1; after cleanup_inactive_clients with a
30 minute timeout the client is gone from the client table (one removal
reported) but its presence entry survives, so P1 is violated: the idle
sweep does not preserve the subset invariant the claim states. -/
theorem c4_counterexample_sweep_breaks_subset :
    presence_subset_clients room_idle_client = true
    ∧ presence_subset_clients (cleanup_inactive_clients room_idle_client 30 7200).1 = false
    ∧ (cleanup_inactive_clients room_idle_client 30 7200).2 = 1 := by
  refine ⟨rfl, ?_, rfl⟩
  decide

/-- C6, counterexample: on a room marked for removal at instant 5,
add_client succeeds at instant 10 yet the result still carries the mark
(some 5), not none as the claim states: add_client never touches
marked_for_removal. -/
theorem c6_counterexample_mark_survives_join :
    (add_client room_marked "c" 10).toOption.map CRDTRoom.marked_for_removal =
      some (some 5)
    ∧ some (some 5) ≠ some (Option.none (α := Nat)) :=
  ⟨rfl, by decide⟩

theorem assoc_get_isSome_iff (m : List (String × α)) (k : String) :
    (assoc_get m k).isSome = true ↔ ∃ p ∈ m, p.1 = k := by
  unfold assoc_get
  cases hf : m.find? (fun p => p.1 == k) with
  | none =>
    simp only [Option.isSome_none, Bool.false_eq_true, false_iff]
    rintro ⟨p, hp, hk⟩
    have := List.find?_eq_none.mp hf p hp
    simp [hk] at this
  | some p =>
    simp only [Option.isSome_some, true_iff]
    refine ⟨p, List.mem_of_find?_eq_some hf, ?_⟩
    have := List.find?_some hf
    simpa using this

theorem assoc_insert_mem_keys (m : List (String × α)) (k j : String) (v : α) :
    (∃ p ∈ assoc_insert m k v, p.1 = j) ↔ (∃ p ∈ m, p.1 = j) ∨ j = k := by
  unfold assoc_insert
  split
  case isTrue hf =>
    constructor
    · rintro ⟨p, hp, hj⟩
      obtain ⟨q, hq, hfq⟩ := List.mem_map.mp hp
      by_cases hqk : q.1 = k
      · right
        have hfq2 : (k, v) = p := by simpa [hqk] using hfq
        rw [← hfq2] at hj
        exact hj.symm
      · left
        have hb : (q.1 == k) = false := by simpa using hqk
        have hfq2 : q = p := by simpa [hb] using hfq
        exact ⟨q, hq, by rw [hfq2]; exact hj⟩
    · rintro (⟨p, hp, hj⟩ | hj)
      · by_cases hpk : p.1 = k
        · refine ⟨(k, v), List.mem_map.mpr ⟨p, hp, by simp [hpk]⟩, ?_⟩
          simp [← hj, hpk]
        · refine ⟨p, List.mem_map.mpr ⟨p, hp, ?_⟩, hj⟩
          have : (p.1 == k) = false := by simpa using hpk
          simp [this]
      · obtain ⟨q, hq⟩ := Option.isSome_iff_exists.mp hf
        have hqm := List.mem_of_find?_eq_some hq
        have hqk : q.1 = k := by have := List.find?_some hq; simpa using this
        refine ⟨(k, v), List.mem_map.mpr ⟨q, hqm, by simp [hqk]⟩, hj.symm⟩
  case isFalse hf =>
    constructor
    · rintro ⟨p, hp, hj⟩
      rcases List.mem_append.mp hp with h | h
      · exact Or.inl ⟨p, h, hj⟩
      · right
        simp only [List.mem_singleton] at h
        rw [h] at hj
        exact hj.symm
    · rintro (⟨p, hp, hj⟩ | hj)
      · exact ⟨p, List.mem_append.mpr (Or.inl hp), hj⟩
      · exact ⟨(k, v), List.mem_append.mpr (Or.inr (List.mem_singleton.mpr rfl)), hj.symm⟩

theorem assoc_insert_length_le (m : List (String × α)) (k : String) (v : α) :
    (assoc_insert m k v).length ≤ m.length + 1 := by
  unfold assoc_insert
  split
  · simp
  · simp

theorem assoc_get_singleton (k : String) (v : α) : assoc_get [(k, v)] k = some v := by
  simp [assoc_get, List.find?]

theorem assoc_erase_singleton (k : String) (v : α) : assoc_erase [(k, v)] k = [] := by
  simp [assoc_erase]

theorem presence_subset_iff (room : CRDTRoom) :
    presence_subset_clients room = true ↔
      ∀ p ∈ room.awareness_states, ∃ q ∈ room.clients, q.1 = p.1 := by
  unfold presence_subset_clients
  rw [List.all_eq_true]
  constructor
  · intro h p hp
    exact (assoc_get_isSome_iff room.clients p.1).mp (h p hp)
  · intro h p hp
    exact (assoc_get_isSome_iff room.clients p.1).mpr (h p hp)

theorem is_valid_awareness_length (l : List Byte) :
    is_valid_awareness_data l =
      (decide (0 < l.length) && decide (l.length ≤ 50000)) := by
  cases l with
  | nil => rfl
  | cons b bs =>
    simp only [is_valid_awareness_data, List.isEmpty_cons, Bool.false_or]
    rcases Nat.lt_or_ge 50000 (b :: bs).length with h | h
    · rw [decide_eq_true h, decide_eq_false (Nat.not_le.mpr h)]
      simp
    · rw [decide_eq_false (Nat.not_lt.mpr h), decide_eq_true h,
        decide_eq_true (show 0 < (b :: bs).length by simp)]
      simp

theorem touch_client_clients_of_mem (room : CRDTRoom) (client_id : String) (now : Nat)
    (hmem : (assoc_get room.clients client_id).isSome = true) :
    touch_client room client_id now =
      { room with clients := assoc_insert room.clients client_id now } := by
  unfold touch_client
  rw [if_pos hmem]

theorem touch_client_preserves_subset (room : CRDTRoom) (client_id : String) (now : Nat)
    (hsub : presence_subset_clients room = true) :
    presence_subset_clients (touch_client room client_id now) = true := by
  unfold touch_client
  by_cases hmem : (assoc_get room.clients client_id).isSome = true
  · rw [if_pos hmem, presence_subset_iff]
    intro p hp
    obtain ⟨q, hq, hqk⟩ := (presence_subset_iff room).mp hsub p hp
    have := (assoc_insert_mem_keys room.clients client_id p.1 now).mpr
      (Or.inl ⟨q, hq, hqk⟩)
    obtain ⟨r, hr, hrk⟩ := this
    exact ⟨r, hr, hrk⟩
  · rw [if_neg hmem]
    exact hsub

/-- C4, amended: remove_client preserves the subset invariant P1
(presence keys within client keys), and a message from a sender present
in the client table preserves it too; but cleanup_inactive_clients leaves
the awareness table untouched while removing idle clients, so the idle
sweep does not preserve the invariant (the counterexample above). -/
theorem c4_subset_invariant_amended (room : CRDTRoom) (client_id : String)
    (data : List Byte) (timeout_minutes now : Nat)
    (hsub : presence_subset_clients room = true) :
    presence_subset_clients (remove_client room client_id now) = true
    ∧ ((assoc_get room.clients client_id).isSome = true →
        presence_subset_clients (handle_message room client_id data now).1 = true)
    ∧ (cleanup_inactive_clients room timeout_minutes now).1.awareness_states =
        room.awareness_states := by
  refine ⟨?_, ?_, ?_⟩
  · unfold remove_client
    by_cases hmem : (assoc_get room.clients client_id).isSome = true
    · rw [if_pos hmem, presence_subset_iff]
      intro p hp
      obtain ⟨hpm, hpb⟩ := List.mem_filter.mp hp
      have hpne : p.1 ≠ client_id := by simpa using hpb
      obtain ⟨q, hq, hqk⟩ := (presence_subset_iff room).mp hsub p hpm
      refine ⟨q, List.mem_filter.mpr ⟨hq, ?_⟩, hqk⟩
      simpa [hqk] using hpne
    · rw [if_neg hmem]
      exact hsub
  · intro hmem
    have h1sub := touch_client_preserves_subset room client_id now hsub
    have htc := touch_client_clients_of_mem room client_id now hmem
    have hcidkey : ∃ q ∈ (touch_client room client_id now).clients, q.1 = client_id := by
      rw [htc]
      exact (assoc_insert_mem_keys room.clients client_id client_id now).mpr (Or.inr rfl)
    rcases data with _ | ⟨t, rest⟩
    · exact hsub
    · rcases t with _ | t1
      · -- sync tag 0
        rcases rest with _ | ⟨b, bs⟩
        · exact h1sub
        · simp only [handle_message]
          split <;> (try split) <;> exact h1sub
      · rcases t1 with _ | t2
        · -- awareness tag 1
          rcases rest with _ | ⟨b, bs⟩
          · exact h1sub
          · simp only [handle_message]
            split
            · rw [presence_subset_iff]
              intro p hp
              have hp2 : p ∈ assoc_insert
                  (touch_client room client_id now).awareness_states client_id
                  (b :: bs) := hp
              have hkey := (assoc_insert_mem_keys
                (touch_client room client_id now).awareness_states client_id p.1
                (b :: bs)).mp ⟨p, hp2, rfl⟩
              rcases hkey with ⟨q, hq, hqk⟩ | hpk
              · obtain ⟨r, hr, hrk⟩ := (presence_subset_iff _).mp h1sub q hq
                exact ⟨r, hr, by rw [hrk, hqk]⟩
              · rw [hpk]
                exact hcidkey
            · exact h1sub
        · -- any other tag
          exact h1sub
  · rfl

/-- Witness for the amended C4 theorem at a concrete room: the idle-client
room satisfies P1, removing the client and a presence frame from it keep
P1, and the sweep leaves the awareness table as it was. -/
theorem c4_subset_invariant_amended_witness :
    presence_subset_clients (remove_client room_idle_client "c" 3) = true
    ∧ presence_subset_clients (handle_message room_idle_client "c" [1, 9] 3).1 = true
    ∧ (cleanup_inactive_clients room_idle_client 30 7200).1.awareness_states =
        room_idle_client.awareness_states := by
  have h := c4_subset_invariant_amended room_idle_client "c" [1, 9] 30 7200 (by decide)
  exact ⟨h.1, h.2.1 (by decide), h.2.2⟩

/-- C5: add_client returns the capacity error exactly when the client
table has reached max_clients_per_room at the time of the call; on error
the observed room state is unchanged (the check precedes every mutation);
on success the client is inserted at the current instant and only
clients and last_activity change; and a successful call never pushes the
table past the capacity bound. -/
theorem c5_add_client_capacity (room : CRDTRoom) (client_id : String) (now : Nat) :
    ((∃ e, add_client room client_id now = .error e) ↔
      room.clients.length ≥ room.config.max_clients_per_room)
    ∧ (room.clients.length ≥ room.config.max_clients_per_room →
        add_client room client_id now = .error "Room capacity reached"
        ∧ add_client_state room client_id now = room)
    ∧ (room.clients.length < room.config.max_clients_per_room →
        add_client room client_id now =
          .ok { room with
                  clients := assoc_insert room.clients client_id now
                  last_activity := now })
    ∧ (∀ r2, add_client room client_id now = .ok r2 →
        r2.clients.length ≤ room.config.max_clients_per_room
        ∧ r2.awareness_states = room.awareness_states
        ∧ r2.doc = room.doc) := by
  by_cases h : room.clients.length ≥ room.config.max_clients_per_room
  · refine ⟨⟨fun _ => h, fun _ => ⟨"Room capacity reached", ?_⟩⟩,
      fun _ => ⟨?_, ?_⟩, fun hlt => absurd h (by omega), ?_⟩
    · unfold add_client
      rw [if_pos h]
    · unfold add_client
      rw [if_pos h]
    · unfold add_client_state add_client
      rw [if_pos h]
    · intro r2 hr2
      unfold add_client at hr2
      rw [if_pos h] at hr2
      cases hr2
  · have hlt : room.clients.length < room.config.max_clients_per_room := by omega
    refine ⟨⟨?_, fun hge => absurd hge h⟩, fun hge => absurd hge h, fun _ => ?_, ?_⟩
    · rintro ⟨e, he⟩
      unfold add_client at he
      rw [if_neg h] at he
      cases he
    · unfold add_client
      rw [if_neg h]
    · intro r2 hr2
      unfold add_client at hr2
      rw [if_neg h] at hr2
      cases hr2
      refine ⟨?_, rfl, rfl⟩
      calc (assoc_insert room.clients client_id now).length
          ≤ room.clients.length + 1 := assoc_insert_length_le _ _ _
        _ ≤ room.config.max_clients_per_room := by omega

/-- Witness for the C5 theorem: a room at its capacity of one rejects a
join with the capacity error and is unchanged, and a fresh room admits a
client, inserting it at the current instant. -/
theorem c5_add_client_capacity_witness :
    (add_client room_at_capacity "b" 3 = .error "Room capacity reached"
      ∧ add_client_state room_at_capacity "b" 3 = room_at_capacity)
    ∧ add_client (CRDTRoom.new "r" ServerConfig.default 0) "b" 3 =
        .ok { CRDTRoom.new "r" ServerConfig.default 0 with
                clients := assoc_insert (CRDTRoom.new "r" ServerConfig.default 0).clients "b" 3
                last_activity := 3 } :=
  ⟨(c5_add_client_capacity room_at_capacity "b" 3).2.1 (by decide),
   (c5_add_client_capacity (CRDTRoom.new "r" ServerConfig.default 0) "b" 3).2.2.1 (by decide)⟩

/-- C6, amended: a successful add_client leaves marked_for_removal
exactly as it was (it never clears the mark); the mark is cleared only by
unmark_for_removal, which no code path invokes. -/
theorem c6_add_client_keeps_mark (room : CRDTRoom) (client_id : String) (now : Nat) :
    (∀ r2, add_client room client_id now = .ok r2 →
      r2.marked_for_removal = room.marked_for_removal)
    ∧ (unmark_for_removal room).marked_for_removal = none := by
  constructor
  · intro r2 h
    unfold add_client at h
    split at h
    · cases h
    · cases h
      rfl
  · rfl

/-- Witness for the amended C6 theorem: on the marked room the successful
join keeps the mark, and unmark_for_removal clears it. -/
theorem c6_add_client_keeps_mark_witness :
    ({ room_marked with
         clients := assoc_insert room_marked.clients "c" 10
         last_activity := 10 } : CRDTRoom).marked_for_removal =
      room_marked.marked_for_removal
    ∧ (unmark_for_removal room_marked).marked_for_removal = none :=
  ⟨(c6_add_client_keeps_mark room_marked "c" 10).1 _ (by rfl),
   (c6_add_client_keeps_mark room_marked "c" 10).2⟩

theorem touch_client_doc (room : CRDTRoom) (client_id : String) (now : Nat) :
    (touch_client room client_id now).doc = room.doc := by
  unfold touch_client
  split <;> rfl

/-- C7: a tag-0 frame whose inner payload fails decoding (bad varint, bad
buffer, undecodable state vector or update, or an inner sub-type outside
0, 1, 2, all of which make read_sync_message fail) is discarded: the
response is empty and the resulting room is exactly the sender-activity
touch, so the replica, the awareness table and the client set are
untouched by the sync path, and no error reaches the client (the handler
is total and returns normally). -/
theorem c7_malformed_sync_frame_discarded (room : CRDTRoom) (client_id : String)
    (rest : List Byte) (now : Nat)
    (h : read_sync_message rest room.doc = none) :
    handle_message room client_id (0 :: rest) now =
      (touch_client room client_id now, []) := by
  cases rest with
  | nil => rfl
  | cons b bs =>
    have hdoc := touch_client_doc room client_id now
    simp only [handle_message]
    rw [hdoc, h]

/-- Witness for the C7 theorem: the frame with tag 0 and inner sub-type 5
(outside 0, 1, 2) is discarded on a concrete room. -/
theorem c7_malformed_sync_frame_discarded_witness :
    handle_message room_one_item "c" [0, 5] 3 =
      (touch_client room_one_item "c" 3, []) :=
  c7_malformed_sync_frame_discarded room_one_item "c" [5] 3 (by rfl)

/-- C8: a presence payload (the bytes after the tag-1 byte) is valid
exactly when its length lies in the half-open interval from 1 to 50000;
handle_message stores a valid payload under the sender and leaves the
awareness table unchanged on an invalid one; a payload of length 50000 is
accepted and one of length 50001 (or zero) is rejected. -/
theorem c8_presence_payload_bounds (room : CRDTRoom) (client_id : String)
    (payload : List Byte) (now : Nat) :
    (is_valid_awareness_data payload =
      (decide (0 < payload.length) && decide (payload.length ≤ 50000)))
    ∧ (handle_message room client_id (1 :: payload) now =
        (if is_valid_awareness_data payload then
          { touch_client room client_id now with
              awareness_states :=
                assoc_insert (touch_client room client_id now).awareness_states
                  client_id payload }
         else touch_client room client_id now, []))
    ∧ is_valid_awareness_data (List.replicate 50000 7) = true
    ∧ is_valid_awareness_data (List.replicate 50001 7) = false := by
  refine ⟨is_valid_awareness_length payload, ?_, ?_, ?_⟩
  · cases payload with
    | nil => rfl
    | cons b bs =>
      simp only [handle_message]
      cases hv : is_valid_awareness_data (b :: bs) with
      | true => rfl
      | false => rfl
  · rw [is_valid_awareness_length, List.length_replicate]
    decide
  · rw [is_valid_awareness_length, List.length_replicate]
    decide

theorem save_to_redis_disabled_ok (room : CRDTRoom) (redis_fails : Bool)
    (hr : room.redis = none ∨ room.redis = some { enabled := false }) :
    save_to_redis room redis_fails = .ok none := by
  unfold save_to_redis
  rcases hr with h | h <;> rw [h]
  rfl

/-- C10: with no redis handle or a disabled one, save_to_redis reports
success without issuing any write; consequently when the only client of
such a room leaves, handle_leave takes the save as successful and drops
the room from the registry at once, its replica state included. -/
theorem c10_disabled_save_ok_room_dropped (room : CRDTRoom)
    (name client_id : String) (t now : Nat) (redis_fails : Bool)
    (hr : room.redis = none ∨ room.redis = some { enabled := false })
    (hc : room.clients = [(client_id, t)]) :
    save_to_redis room redis_fails = .ok none
    ∧ handle_leave [(name, room)] name client_id redis_fails now = [] := by
  refine ⟨save_to_redis_disabled_ok room redis_fails hr, ?_⟩
  have hrm : remove_client room client_id now =
      { room with
          clients := []
          awareness_states := assoc_erase room.awareness_states client_id
          last_activity := now } := by
    unfold remove_client
    rw [hc, assoc_get_singleton]
    simp only [Option.isSome_some, if_true]
    rw [assoc_erase_singleton]
  have hsave := save_to_redis_disabled_ok
    { room with
        clients := []
        awareness_states := assoc_erase room.awareness_states client_id
        last_activity := now } redis_fails hr
  simp only [handle_leave, assoc_get_singleton, hc, Option.isSome_some, if_true,
    hrm, List.length_nil, hsave, assoc_erase_singleton]

/-- Witness for the C10 theorem: a concrete room with a disabled redis
handle and a single client saves as a no-op success and is dropped from
the registry the moment that client leaves. -/
theorem c10_disabled_save_ok_room_dropped_witness :
    save_to_redis room_redis_disabled false = .ok none
    ∧ handle_leave [("r", room_redis_disabled)] "r" "c" false 9 = [] :=
  c10_disabled_save_ok_room_dropped room_redis_disabled "r" "c" 1 9 false
    (Or.inr rfl) rfl

theorem sv_lookup_sv_bump (sv : YStateVector) (c k c2 : Nat) :
    sv_lookup (sv_bump sv c k) c2 =
      if c2 = c then max (sv_lookup sv c2) k else sv_lookup sv c2 := by
  induction sv with
  | nil =>
    by_cases h : c2 = c
    · subst h
      simp [sv_bump, sv_lookup]
    · have hb : (c == c2) = false := by simpa using (Ne.symm h)
      simp [sv_bump, sv_lookup, hb, h]
  | cons p rest ih =>
    by_cases hpc : p.1 = c
    · have hb : (p.1 == c) = true := by simpa using hpc
      by_cases h2 : c2 = c
      · have hc2 : (c == c2) = true := by simp [h2]
        have hp1c2 : (p.1 == c2) = true := by simp [hpc, h2]
        simp [sv_bump, sv_lookup, hb, List.find?, hc2, hp1c2, h2]
      · have hc2 : (c == c2) = false := by simpa using (Ne.symm h2)
        have hp1c2 : (p.1 == c2) = false := by rw [hpc]; simpa using (Ne.symm h2)
        simp [sv_bump, sv_lookup, hb, List.find?, hc2, hp1c2, h2]
    · have hb : (p.1 == c) = false := by simpa using hpc
      by_cases hp2 : p.1 = c2
      · have hb2 : (p.1 == c2) = true := by simpa using hp2
        have h2 : ¬ c2 = c := by rw [← hp2]; exact hpc
        simp [sv_bump, sv_lookup, hb, hb2, h2, List.find?]
      · have hb2 : (p.1 == c2) = false := by simpa using hp2
        simp only [sv_bump, hb, Bool.false_eq_true, if_false]
        have hl : sv_lookup (p :: sv_bump rest c k) c2 =
            sv_lookup (sv_bump rest c k) c2 := by
          simp [sv_lookup, List.find?, hb2]
        have hr2 : sv_lookup (p :: rest) c2 = sv_lookup rest c2 := by
          simp [sv_lookup, List.find?, hb2]
        rw [hl, hr2, ih]

theorem sv_lookup_foldl_ge (d : YDoc) :
    ∀ (sv : YStateVector) (c : Nat),
      sv_lookup sv c ≤
        sv_lookup (d.foldl (fun s j => sv_bump s j.client (j.clock + 1)) sv) c := by
  induction d with
  | nil => intro sv c; exact le_refl _
  | cons hd tl ih =>
    intro sv c
    refine le_trans ?_ (ih (sv_bump sv hd.client (hd.clock + 1)) c)
    rw [sv_lookup_sv_bump]
    split
    · exact le_max_left _ _
    · exact le_refl _

theorem sv_foldl_mem_ge (d : YDoc) :
    ∀ (sv : YStateVector) (it : YItem), it ∈ d →
      it.clock + 1 ≤
        sv_lookup (d.foldl (fun s j => sv_bump s j.client (j.clock + 1)) sv) it.client := by
  induction d with
  | nil => intro sv it h; cases h
  | cons hd tl ih =>
    intro sv it h
    rcases List.mem_cons.mp h with h | h
    · subst h
      simp only [List.foldl_cons]
      refine le_trans ?_ (sv_lookup_foldl_ge tl (sv_bump sv it.client (it.clock + 1)) it.client)
      rw [sv_lookup_sv_bump, if_pos rfl]
      exact le_max_right _ _
    · simp only [List.foldl_cons]
      exact ih (sv_bump sv hd.client (hd.clock + 1)) it h

theorem missing_items_own_sv (d : YDoc) : missing_items d (state_vector d) = [] := by
  unfold missing_items
  rw [List.filter_eq_nil_iff]
  intro it hmem
  have hge := sv_foldl_mem_ge d [] it hmem
  have hsv : state_vector d =
      d.foldl (fun s j => sv_bump s j.client (j.clock + 1)) [] := rfl
  rw [hsv]
  simp only [decide_eq_true_eq]
  omega

/-- C1: the claim says the bytes save_to_redis writes equal the encoding
against the zero state vector (the full state). The source instead
encodes the replica against the replica's own current state vector: for
every room with an enabled redis handle the successful save writes the
encoding of an empty item list (no item of a replica is ever missing from
its own state vector), and at the concrete room holding one item those
bytes differ from the zero-state-vector encoding. This evaluates the code
at that failing input, confirming the very bug the spec flags as an open
question. -/
theorem c1_save_writes_empty_delta :
    (∀ (room : CRDTRoom) (redis : RedisManager), room.redis = some redis →
        redis.enabled = true →
        save_to_redis room false =
          .ok (some (save_room_state room.name (encode_items []))))
    ∧ save_to_redis room_one_item false =
        .ok (some { key := "room:r:state"
                    value := encode_items []
                    ttl_seconds := some 86400 })
    ∧ encode_items [] ≠ encode_state_as_update_v1 room_one_item.doc [] := by
  refine ⟨?_, rfl, by decide⟩
  intro room redis hred hen
  have hval : encode_state_as_update_v1 room.doc (state_vector room.doc) =
      encode_items [] := by
    unfold encode_state_as_update_v1
    rw [missing_items_own_sv]
  simp [save_to_redis, hred, hen, hval]

/-- Witness for the C1 theorem at the concrete room: the save succeeds
and writes the empty-delta bytes. -/
theorem c1_save_writes_empty_delta_witness :
    save_to_redis room_one_item false =
      .ok (some (save_room_state room_one_item.name (encode_items []))) :=
  (c1_save_writes_empty_delta).1 room_one_item { enabled := true } rfl rfl
